import Mathlib

/-!
# A verification of the WordPress-to-Contentful migration pipeline

This file gives a shallow embedding, in Lean 4, of the transformation and
publishing pipeline of the migration script (the script referred to below by
its source line numbers is `src/unnamed/part_000`; the legacy variant
`src/migration.js` shares the relevant functions verbatim).  Network calls and
the destination SDK are modelled by explicit parameters (a page-serving
function for the source API, an outcome oracle for asset uploads); JavaScript
runtime failures (`TypeError` on property access of `undefined`) are modelled
with `Except`; `console.log` diagnostics are modelled as accumulated string
lists.  All definitions are executable.
-/

namespace WpToCtf

/-! ## JavaScript string primitives used by the script -/

/-- Model of the JavaScript `String.prototype.split` builtin for a single-char
separator, at the character-list level: chunks between occurrences of `sep`.
`split` never returns an empty list (the empty string yields `[[]]`). -/
def splitListChar (sep : Char) : List Char → List (List Char)
  | [] => [[]]
  | c :: rest =>
    match splitListChar sep rest with
    | [] => [[c]]
    | h :: t => if c = sep then [] :: h :: t else (c :: h) :: t

/-- Model of the JavaScript `link.split(sep)` for a one-character separator. -/
def jsSplitChar (sep : Char) (s : String) : List String :=
  (splitListChar sep s.data).map String.mk

/-- The file-name derivation `link.split('/').pop()` used throughout the
script (source lines 147, 730, 904): the chunk after the last `/`, or the
whole string when it has no `/`. -/
def lastSegment (link : String) : String :=
  (jsSplitChar '/' link).getLastD ""

/-- Spec-side formalisation of "the substring of the source URL after its last
`/` separator", written independently of `split`/`pop`: the longest suffix of
the string containing no `/`. -/
def suffixAfterLastSlash (s : String) : String :=
  String.mk ((s.data.reverse.takeWhile (fun c => c ≠ '/')).reverse)

/-- The characters matched by the JavaScript regex class `\s` (restricted to
the code points the migration's inputs use). -/
def isJsSpace (c : Char) : Bool :=
  c = ' ' || c = '\t' || c = '\n' || c = '\r' || c = '\x0b' || c = '\x0c'

/-- Either kind of quote accepted by the image regex `['\x22]` class. -/
def isQuoteChar (c : Char) : Bool :=
  c = '"' || c = Char.ofNat 39

/-- Character-list version of "the first list begins with the second". -/
def charsStartWith : List Char → List Char → Bool
  | [], _ => true
  | _ :: _, [] => false
  | p :: ps, c :: cs => p = c && charsStartWith ps cs

/-- Model of the JavaScript builtin `s.startsWith(pre)`, at the character
level. -/
def jsStartsWith (s pre : String) : Bool :=
  charsStartWith pre.data s.data

/-- Model of the JavaScript builtin `s.substring(k)` (drop the first `k`
characters), at the character level. -/
def jsSubstring (k : Nat) (s : String) : String :=
  String.mk (s.data.drop k)

/-- Fuel-bounded splitter on a (non-empty) separator string, at the character
level; each step consumes at least one character, so fuel equal to the input
length suffices. -/
def splitOnListAux (sep : List Char) :
    Nat → List Char → List Char → List (List Char)
  | 0, acc, cs => [acc.reverse ++ cs]
  | _ + 1, acc, [] => [acc.reverse]
  | fuel + 1, acc, c :: rest =>
    if charsStartWith sep (c :: rest) then
      acc.reverse :: splitOnListAux sep fuel [] ((c :: rest).drop sep.length)
    else splitOnListAux sep fuel (c :: acc) rest

/-- Model of the JavaScript builtin `s.split(sep)` for a non-empty string
separator: the chunks between non-overlapping occurrences of `sep`, scanned
left to right. -/
def jsSplitOnStr (sep s : String) : List String :=
  (splitOnListAux sep.data s.length [] s.data).map String.mk

/-- Model of the JavaScript builtin `s.trim()` (restricted to the whitespace
code points the migration's inputs use). -/
def jsTrim (s : String) : String :=
  String.mk (((s.data.dropWhile isJsSpace).reverse.dropWhile
    isJsSpace).reverse)

/-- JavaScript truthiness conversion of a possibly-`undefined` string into the
text interpolated by a template literal: `undefined` prints as `"undefined"`. -/
def jsToString : Option String → String
  | none => "undefined"
  | some s => s

/-- The characters the JavaScript `encodeURI` builtin leaves unescaped:
alphanumerics plus `; , / ? : @ & = + $ - _ . ! ~ * ' ( ) #`. -/
def encodeURIUnescaped (c : Char) : Bool :=
  c.isAlphanum || c ∈ [';', ',', '/', '?', ':', '@', '&', '=', '+', '$', '-',
    '_', '.', '!', '~', '*', Char.ofNat 39, '(', ')', '#']

/-- Upper-case hexadecimal digit. -/
def hexDigit (n : Nat) : Char :=
  Char.ofNat (if n < 10 then 48 + n else 55 + (n - 10))

/-- Percent escape `%XX` of one byte, upper-case, as `encodeURI` produces. -/
def percentByte (b : Nat) : String :=
  String.mk ['%', hexDigit (b / 16), hexDigit (b % 16)]

/-- UTF-8 bytes of a single character (code point), standard 1–4 byte form. -/
def utf8Bytes (c : Char) : List Nat :=
  let n := c.toNat
  if n < 0x80 then [n]
  else if n < 0x800 then [0xC0 + n / 64, 0x80 + n % 64]
  else if n < 0x10000 then
    [0xE0 + n / 4096, 0x80 + (n / 64) % 64, 0x80 + n % 64]
  else
    [0xF0 + n / 262144, 0x80 + (n / 4096) % 64, 0x80 + (n / 64) % 64,
     0x80 + n % 64]

/-- Model of the JavaScript `encodeURI` builtin (used at source line 731):
unescaped characters pass through, every other character becomes the `%XX`
escapes of its UTF-8 bytes. -/
def encodeURI (s : String) : String :=
  s.data.foldl
    (fun acc c =>
      if encodeURIUnescaped c then acc.push c
      else acc ++ String.join ((utf8Bytes c).map percentByte))
    ""

/-! ## Data model

The raw WordPress records, with exactly the fields the script consumes. -/

/-- A WordPress media record (fields read at source lines 509–524). -/
structure MediaObj where
  id : Nat
  source_url : String
  alt_text : String
  post : Nat
  deriving DecidableEq

/-- A WordPress tag or category record (fields read at source lines 559–567). -/
structure LabelObj where
  id : Nat
  name : String
  deriving DecidableEq

/-- A raw WordPress post, restricted to the fields `mapData` consumes
(source lines 478–489): `title.rendered` and `content.rendered` are carried
flattened. -/
structure RawPost where
  id : Nat
  type : String
  title_rendered : String
  slug : String
  content_rendered : String
  date_gmt : String
  featured_media : Nat
  tags : List Nat
  categories : List Nat
  deriving DecidableEq

/-- One image reference pushed by `getPostBodyImages` (source lines 517–524
and 537–543).  Body images carry no `mediaId` key, modelled as `none`. -/
structure ImageRef where
  link : String
  description : String
  title : String
  mediaId : Option Nat
  postId : Nat
  featured : Bool
  deriving DecidableEq

/-- The payload of one fetched endpoint, by resource kind. -/
inductive ApiPayload
  | media (items : List MediaObj)
  | labels (items : List LabelObj)
  | posts (items : List RawPost)
  deriving DecidableEq

/-- One element of the global `apiData` array: the result of fetching one
endpoint, as produced by `migrateContent` (source lines 393–409). -/
structure ApiResult where
  endpoint : String
  success : Bool
  data : ApiPayload
  deriving DecidableEq

/-- The `fieldData` record built per post by `mapData` (source lines 478–489). -/
structure FieldData where
  id : Nat
  type : String
  postTitle : String
  slug : String
  content : String
  publishDate : String
  featuredImage : Nat
  tags : List String
  categories : List String
  contentImages : List ImageRef
  deriving DecidableEq

/-! ## Body-image extraction

Model of the regex scan at source lines 503 and 530–544: the pattern is
`<img\s[^>]*?src\s*=\s*['\x22]([^'\x22]*?)['\x22][^>]*?>` executed globally,
with the `alt` text pulled out of the whole match by
`foundImage[0].split('alt="')[1].split('"')[0]`. -/

/-- Try to match `src\s*=\s*['\x22]` at the head of the character list.
On success, returns the consumed characters (including the opening quote)
and the remainder. -/
def matchSrcEq : List Char → Option (List Char × List Char)
  | 's' :: 'r' :: 'c' :: rest =>
    let ws1 := rest.takeWhile isJsSpace
    match rest.dropWhile isJsSpace with
    | '=' :: r2 =>
      let ws2 := r2.takeWhile isJsSpace
      match r2.dropWhile isJsSpace with
      | q :: r4 =>
        if isQuoteChar q then
          some ('s' :: 'r' :: 'c' :: (ws1 ++ '=' :: ws2 ++ [q]), r4)
        else none
      | [] => none
    | _ => none
  | _ => none

/-- The lazy `[^>]*?src\s*=\s*['\x22]` part: scan forward, never across a
`>`, until `src\s*=\s*['\x22]` matches.  Returns all consumed characters
(skipped ones plus the `src=...` quote head) and the remainder. -/
def scanForSrc : List Char → Option (List Char × List Char)
  | [] => none
  | c :: rest =>
    match matchSrcEq (c :: rest) with
    | some (con, r) => some (con, r)
    | none =>
      if c = '>' then none
      else (scanForSrc rest).map (fun p => (c :: p.1, p.2))

/-- Attempt the whole image pattern at the head of the list.  On success,
returns `(wholeMatch, srcCapture, remainder)` — `wholeMatch` is
`foundImage[0]`, `srcCapture` is `foundImage[1]`. -/
def matchImgAt : List Char → Option (String × String × List Char)
  | '<' :: 'i' :: 'm' :: 'g' :: w :: rest =>
    if isJsSpace w then
      match scanForSrc rest with
      | none => none
      | some (mid, afterQuote) =>
        let src := afterQuote.takeWhile (fun c => ¬ isQuoteChar c)
        match afterQuote.dropWhile (fun c => ¬ isQuoteChar c) with
        | q :: rest3 =>
          let tail := rest3.takeWhile (fun c => c ≠ '>')
          match rest3.dropWhile (fun c => c ≠ '>') with
          | '>' :: rest5 =>
            some (String.mk ('<' :: 'i' :: 'm' :: 'g' :: w ::
                    (mid ++ src ++ q :: tail ++ ['>'])),
                  String.mk src, rest5)
          | _ => none
        | [] => none
    else none
  | _ => none

/-- Leftmost match of the image pattern anywhere in the list (the `exec`
search). -/
def findImgMatch : List Char → Option (String × String × List Char)
  | [] => none
  | c :: rest =>
    match matchImgAt (c :: rest) with
    | some m => some m
    | none => findImgMatch rest

/-- The `alt` extraction of source lines 531–535: default
`Image from post {id}`, replaced by the text between the first `alt="` of the
whole match and the following `"` when present and non-empty (the `||`). -/
def imgAlt (pid : Nat) (whole : String) : String :=
  let dflt := s!"Image from post {pid}"
  match jsSplitOnStr "alt=\"" whole with
  | _ :: afterAlt :: _ =>
    let a := String.mk (afterAlt.data.takeWhile (fun c => c ≠ '"'))
    if a = "" then dflt else a
  | _ => dflt

/-- The body-image reference pushed at source lines 537–543. -/
def mkBodyRef (pid : Nat) (whole src : String) : ImageRef :=
  { link := src, description := imgAlt pid whole, title := imgAlt pid whole,
    mediaId := none, postId := pid, featured := false }

/-- The `while (foundImage = imageRegex.exec(...))` loop (source lines
530–544), fuel-bounded; each match consumes at least one character, so fuel
equal to the content length suffices. -/
def extractBodyImagesAux (pid : Nat) : Nat → List Char → List ImageRef
  | 0, _ => []
  | fuel + 1, cs =>
    match findImgMatch cs with
    | none => []
    | some (whole, src, rest) =>
      mkBodyRef pid whole src :: extractBodyImagesAux pid fuel rest

/-- All body images of a post's rendered HTML content, in document order of
their `<img>` tags. -/
def extractBodyImages (content : String) (pid : Nat) : List ImageRef :=
  extractBodyImagesAux pid content.length content.data

/-! ## Resource index and post normalization -/

/-- Model of `getApiDataType` (source lines 580–593): filter the global `apiData` down
to successful results for one endpoint. -/
def getApiDataType (api : List ApiResult) (resourceName : String) :
    List ApiResult :=
  api.filter (fun o => o.endpoint = resourceName ∧ o.success)

/-- The label records of a payload; in JavaScript, filtering a payload of the
wrong shape matches nothing (`obj.name` is `undefined`), so a non-label
payload behaves as an empty collection. -/
def labelItems : ApiPayload → List LabelObj
  | .labels xs => xs
  | _ => []

/-- The media records of a payload, same convention as `labelItems`. -/
def mediaItems : ApiPayload → List MediaObj
  | .media xs => xs
  | _ => []

/-- The per-id loop body of `getPostLabels` (source lines 558–571): filter the
collection by `obj.id === labelId && obj.name` (the predicate returns
`obj.name`, so a falsy — empty — name rejects the record), take element `[0]`,
and push its name when truthy; otherwise log a warning.  Returns the resolved
names and the warnings, in order. -/
def getPostLabelsAux (data : List LabelObj) (labelType : String) :
    List Nat → List String × List String
  | [] => ([], [])
  | labelId :: rest =>
    let found := data.filter (fun o => o.id = labelId ∧ o.name ≠ "")
    let r := getPostLabelsAux data labelType rest
    match found.head? with
    | some o =>
      if o.name ≠ "" then (o.name :: r.1, r.2)
      else (r.1, s!"Warning: {labelType} with ID {labelId} not found" :: r.2)
    | none =>
      (r.1, s!"Warning: {labelType} with ID {labelId} not found" :: r.2)

/-- Model of `getPostLabels` (source lines 548–574): resolve a post's tag or category
IDs against the fetched collection; a missing collection short-circuits to no
labels with a warning. -/
def getPostLabels (api : List ApiResult) (postItems : List Nat)
    (labelType : String) : List String × List String :=
  match (getApiDataType api labelType).head? with
  | none => ([], [s!"Warning: No {labelType} data found"])
  | some apiTag => getPostLabelsAux (labelItems apiTag.data) labelType postItems

/-- The featured-image reference pushed at source lines 517–524: description
and title are `mediaObj.alt_text || 'Featured image for post {id}'`, and the
`postId` key is `mediaObj.post` (the media's own attachment field). -/
def featuredImageRef (m : MediaObj) (pid : Nat) : ImageRef :=
  let alt := if m.alt_text = "" then s!"Featured image for post {pid}"
             else m.alt_text
  { link := m.source_url, description := alt, title := alt,
    mediaId := some m.id, postId := m.post, featured := true }

/-- Model of `getPostBodyImages` (source lines 501–546).  When `featured_media > 0`,
the script reads `getApiDataType('media')[0].data` with no guard: an absent
media result makes the property access throw, modelled as `.error`.  An
unresolved media id is guarded (source line 516) and only logs a warning.
Returns the image list plus emitted warnings. -/
def getPostBodyImages (api : List ApiResult) (post : RawPost) :
    Except String (List ImageRef × List String) :=
  let body := extractBodyImages post.content_rendered post.id
  if post.featured_media > 0 then
    match (getApiDataType api "media").head? with
    | none =>
      .error "TypeError: Cannot read properties of undefined (reading 'data')"
    | some mediaData =>
      match ((mediaItems mediaData.data).filter
               (fun o => o.id = post.featured_media)).head? with
      | some mediaObj => .ok (featuredImageRef mediaObj post.id :: body, [])
      | none =>
        .ok (body,
          [s!"Warning: Featured media with ID {post.featured_media} not found for post: {post.slug}"])
  else
    .ok (body, [])

/-- The per-post body of `mapData`'s loop (source lines 478–489): build the
`fieldData` record.  Warnings from label and image resolution are collected in
field-evaluation order (tags, categories, contentImages). -/
def mapPost (api : List ApiResult) (post : RawPost) :
    Except String (FieldData × List String) := do
  let tagsR := getPostLabels api post.tags "tags"
  let catsR := getPostLabels api post.categories "categories"
  let imgsR ← getPostBodyImages api post
  .ok ({ id := post.id
         type := post.type
         postTitle := post.title_rendered
         slug := post.slug
         content := post.content_rendered
         publishDate := post.date_gmt ++ "+00:00"
         featuredImage := post.featured_media
         tags := tagsR.1
         categories := catsR.1
         contentImages := imgsR.1 },
        tagsR.2 ++ catsR.2 ++ imgsR.2)

/-! ## Content conversion

The script converts HTML through the turndown library, extended with the
`replaceWordPressImages` rule (source lines 142–156).  The library is modelled
here restricted to inputs made of plain text and `<img ...>` tags: text passes
through, each image tag is rendered by the custom rule, and the result is
trimmed (turndown trims its output). -/

/-- Attribute lookup inside one `<img ` tag body, in the style the custom rule
reads them: the text between `name="` and the following `"`. -/
def imgAttr (name : String) (tagBody : String) : String :=
  match jsSplitOnStr (name ++ "=\"") tagBody with
  | _ :: after :: _ => String.mk (after.data.takeWhile (fun c => c ≠ '"'))
  | _ => ""

/-- The `replaceWordPressImages` turndown rule (source lines 142–156): find
the first stored asset URL whose final path segment equals the image `src`'s
final path segment; render `![alt](assetUrl)`.  When nothing matches, the
`[0]` index is `undefined` and the template literal prints `undefined`. -/
def replaceWordPressImages (assetUrls : List String) (src alt : String) :
    String :=
  let assetUrl := (assetUrls.filter
    (fun asset => lastSegment asset = lastSegment src)).head?
  s!"![{alt}]({jsToString assetUrl})"

/-- Model of `turndownService.turndown` on the text-and-images fragment: every
`<img ` tag (closed by the first following `>`) is replaced by the output of
`replaceWordPressImages`; all other text is kept; the result is trimmed. -/
def turndownStr (assetUrls : List String) (html : String) : String :=
  jsTrim (match jsSplitOnStr "<img " html with
   | [] => html
   | t :: rest =>
     t ++ String.join (rest.map (fun (piece : String) =>
       let tagBody := String.mk (piece.data.takeWhile (fun c => c ≠ '>'))
       let after :=
         String.mk ((piece.data.dropWhile (fun c => c ≠ '>')).drop 1)
       replaceWordPressImages assetUrls (imgAttr "src" tagBody)
         (imgAttr "alt" tagBody) ++ after)))

/-- Find the lazy end `](undefined)` of the placeholder regex without
crossing a newline (the `.` class does not match `\n`). -/
def matchUndefRefClose : List Char → Option (List Char)
  | [] => none
  | c :: rest =>
    if c = ']' then
      match rest with
      | '(' :: 'u' :: 'n' :: 'd' :: 'e' :: 'f' :: 'i' :: 'n' :: 'e' :: 'd'
          :: ')' :: r => some r
      | _ => matchUndefRefClose rest
    else if c = '\n' then none
    else matchUndefRefClose rest

/-- One step of the regex `/!\[.*?\]\(undefined\)/`: if a full match starts
at the head of the list (`![`, then a minimal newline-free stretch, then
`](undefined)`), return the remainder after the match. -/
def matchUndefRefAt (cs : List Char) : Option (List Char) :=
  match cs with
  | '!' :: '[' :: rest => matchUndefRefClose rest
  | _ => none

/-- Fuel-bounded global replace of `/!\[.*?\]\(undefined\)/g` with the empty
string (source line 167); each step consumes at least one character. -/
def stripUndefAux : Nat → List Char → List Char
  | 0, cs => cs
  | _ + 1, [] => []
  | fuel + 1, c :: rest =>
    match matchUndefRefAt (c :: rest) with
    | some after => stripUndefAux fuel after
    | none => c :: stripUndefAux fuel rest

/-- The clean-up `htmlContent.replace` of the placeholder regex — the step the
script applies to its input before deriving markdown (source line 167). -/
def stripUndefinedImgRefs (s : String) : String :=
  String.mk (stripUndefAux s.length s.data)

/-- A leaf `text` node of the rich-text document (always built with empty
`marks` and empty `data`, so only the `value` is carried). -/
inductive RText
  | text (value : String)
  deriving DecidableEq

/-- A `paragraph` node as nested inside a blockquote. -/
inductive RPara
  | paragraph (content : List RText)
  deriving DecidableEq

/-- A block node of the rich-text document built by `convertToRichText`.  The
constructors correspond to the `nodeType` values `paragraph`, `heading-1`,
`heading-2`, `heading-3` and `blockquote`, mirroring the exact JSON shapes the
script pushes (a blockquote's content is a list of paragraphs). -/
inductive RNode
  | paragraph (content : List RText)
  | heading1 (content : List RText)
  | heading2 (content : List RText)
  | heading3 (content : List RText)
  | blockquote (content : List RPara)
  deriving DecidableEq

/-- The top-level `document` node returned by `convertToRichText`. -/
structure RDoc where
  content : List RNode
  deriving DecidableEq

/-- The loop body of `convertToRichText` (source lines 176–244): classify one
trimmed line by its leading marker and emit the node(s) it pushes (zero or
one). -/
def classifyLine (trimmedLine : String) : List RNode :=
  if jsStartsWith trimmedLine "# " then
    [.heading1 [.text (jsSubstring 2 trimmedLine)]]
  else if jsStartsWith trimmedLine "## " then
    [.heading2 [.text (jsSubstring 3 trimmedLine)]]
  else if jsStartsWith trimmedLine "### " then
    [.heading3 [.text (jsSubstring 4 trimmedLine)]]
  else if jsStartsWith trimmedLine "> " then
    [.blockquote [.paragraph [.text (jsSubstring 2 trimmedLine)]]]
  else if trimmedLine.length > 0 then
    [.paragraph [.text trimmedLine]]
  else []

/-- Lines 173–250 of `convertToRichText`: split the derived markdown on
newlines, keep lines with non-empty trim, classify each trimmed line. -/
def richTextFromMarkdown (markdown : String) : RDoc :=
  ⟨((jsSplitChar '\n' markdown).filter
      (fun line => (jsTrim line).length > 0)).flatMap
    (fun line => classifyLine (jsTrim line))⟩

/-- Model of `convertToRichText` (source lines 162–251): strip `![...](undefined)`
from the *input HTML*, derive markdown via turndown, then classify lines. -/
def convertToRichText (assetUrls : List String) (htmlContent : String) :
    RDoc :=
  richTextFromMarkdown (turndownStr assetUrls
    (stripUndefinedImgRefs htmlContent))

/-! ## Paginated fetching

Model of `fetchDataWithPagination` (source lines 296–337) against a source
holding `n` items (represented by their indices `0, …, n-1`) that serves
standard WordPress pagination: the request `per_page=k&page=p` returns the
`p`-th size-`k` slice of the collection, and the `x-wp-total` response header
reports `n`.  No request fails in this model (the `catch` branch at source
lines 325–328 is about transport errors, which the claims under study do not
involve). -/

/-- The slice the source returns for `per_page=k&page=p` out of `n` items. -/
def wpPage (n k p : Nat) : List Nat :=
  ((List.range n).drop ((p - 1) * k)).take k

/-- The `while (hasMorePages && allData.length < totalItemsNeeded)` loop
(source lines 304–329), fuel-bounded.  State: accumulated data, the log of
`(per_page, page)` requests issued, and the next page number.  Every
continuing iteration appends a non-empty page, so fuel `M + 1` is enough.
The `x-wp-total` check keeps the JavaScript truthiness of `parseInt`: a
reported total of `0` is falsy and skips the check (source line 321). -/
def fetchLoop (n totalItemsNeeded : Nat) :
    Nat → List Nat → List (Nat × Nat) → Nat → List Nat × List (Nat × Nat)
  | 0, allData, reqs, _ => (allData, reqs)
  | fuel + 1, allData, reqs, page =>
    if allData.length < totalItemsNeeded then
      let itemsToFetch := min 100 (totalItemsNeeded - allData.length)
      let response := wpPage n itemsToFetch page
      let reqs := reqs ++ [(itemsToFetch, page)]
      if response.length = 0 then (allData, reqs)
      else
        let allData := allData ++ response
        if n ≠ 0 ∧ n ≤ allData.length then (allData, reqs)
        else fetchLoop n totalItemsNeeded fuel allData reqs (page + 1)
    else (allData, reqs)

/-- The result record of `fetchDataWithPagination` (source lines 332–336),
extended with the log of page requests issued. -/
structure FetchResult where
  success : Bool
  data : List Nat
  error : Option String
  requests : List (Nat × Nat)
  deriving DecidableEq

/-- Model of `fetchDataWithPagination(baseUrl, totalItemsNeeded)` against a source of
`n` items: run the pagination loop from page 1 and wrap up the result. -/
def fetchDataWithPagination (n totalItemsNeeded : Nat) : FetchResult :=
  let r := fetchLoop n totalItemsNeeded (totalItemsNeeded + 1) [] [] 1
  { success := r.1.length > 0
    data := r.1
    error := if r.1.length = 0 then some "No data retrieved" else none
    requests := r.2 }

/-! ## Asset publishing -/

/-- One Contentful asset-creation payload (source lines 720–734), flattening
the constant `'en-US'` locale wrapper. -/
structure AssetObj where
  title : String
  description : String
  contentType : String
  fileName : String
  upload : String
  deriving DecidableEq

/-- One entry of the `assets` array populated on successful publishes
(source lines 816–819). -/
structure AssetRecord where
  assetId : String
  fileName : String
  deriving DecidableEq

/-- The per-image payload of `buildContentfulAssets` (source lines 716–734).
The `typeof contentImage.title === 'string'` guards are identities here
because the normalizer always produces string titles and descriptions, so the
`Image {i+1} from {slug}` fallbacks are dead in this model. -/
def mkAssetObj (_slug : String) (_imgIndex : Nat) (img : ImageRef) :
    AssetObj :=
  { title := img.title
    description := img.description
    contentType := "image/jpeg"
    fileName := lastSegment img.link
    upload := encodeURI img.link }

/-- The nested loop of `buildContentfulAssets` (source lines 714–738): for
every post in order, for every content image in order, push one asset
payload. -/
def buildContentfulAssets (posts : List FieldData) : List AssetObj :=
  posts.foldl
    (fun acc wpPost =>
      acc ++ (wpPost.contentImages.enum.map
        (fun p => mkAssetObj wpPost.slug p.1 p.2)))
    []

/-- Model of `createContentfulAssets` (source lines 795–834), with the destination
modelled by an outcome oracle giving the asset id each upload publishes under
(`none` = the create/process/publish chain failed and the `catch` resolved
`null`).  Returns the `assets` array — one record pushed per successful item,
in sequence order — and the number of settled promises (every item settles:
the `catch` resolves instead of rejecting). -/
def createContentfulAssets (objs : List AssetObj)
    (outcome : Nat → Option String) : List AssetRecord × Nat :=
  (objs.enum.filterMap
     (fun p => (outcome p.1).map
       (fun assetId => AssetRecord.mk assetId p.2.fileName)),
   objs.length)

/-! ## Entry publishing -/

/-- The converted `content` field value: markdown text in flat mode, a
rich-text document in richtext mode. -/
inductive ContentValue
  | md (s : String)
  | rich (d : RDoc)
  deriving DecidableEq

/-- The value held by the `featuredImage` key while `createContentfulPosts`
builds a payload: the raw WordPress media id, or a resolved asset link. -/
inductive FeaturedValue
  | raw (n : Nat)
  | link (assetId : String)
  deriving DecidableEq

/-- The per-post `postFields` object (source lines 861–924), flattening the
constant `'en-US'` locale wrapper.  Every field is optional because the object
starts empty and is populated key by key (and `featuredImage` may be deleted
again). -/
structure EntryPayload where
  postTitle : Option String := none
  slug : Option String := none
  content : Option ContentValue := none
  publishDate : Option String := none
  featuredImage : Option FeaturedValue := none
  tags : Option String := none
  categories : Option String := none
  deriving DecidableEq

/-- The asset-map lookup of source lines 903–907: filter the uploaded assets
by file name and take element `[0]`. -/
def assetLookup (assets : List AssetRecord) (fileName : String) :
    Option AssetRecord :=
  (assets.filter (fun asset => asset.fileName = fileName)).head?

/-- The body of `createContentfulPosts`'s per-post loop (source lines
861–924): iterate the `fieldData` keys in insertion order (`id`, `type`,
`postTitle`, `slug`, `content`, `publishDate`, `featuredImage`, `tags`,
`categories`, `contentImages`), skipping `id`/`type`/`contentImages`,
converting `content` per the configured format, joining `tags`/`categories`
with `', '`, and resolving `featuredImage`.  The resolution reads
`assetObj.assetId` (line 914) and `post.contentImages[0].link` (line 904)
without guards; a missing match or an empty image list throws, modelled as
`.error`. -/
def buildPostFields (contentFormat : String) (assetUrls : List String)
    (assets : List AssetRecord) (post : FieldData) :
    Except String EntryPayload := do
  let f : EntryPayload := {}
  let f := { f with postTitle := some post.postTitle }
  let f := { f with slug := some post.slug }
  let contentValue :=
    if contentFormat = "richtext" then
      ContentValue.rich (convertToRichText assetUrls post.content)
    else
      ContentValue.md (turndownStr assetUrls post.content)
  let f := { f with content := some contentValue }
  let f := { f with publishDate := some post.publishDate }
  let f := { f with featuredImage := some (.raw post.featuredImage) }
  let f ←
    if post.featuredImage > 0 then
      match post.contentImages.head? with
      | none =>
        Except.error
          "TypeError: Cannot read properties of undefined (reading 'link')"
      | some firstImage =>
        match assetLookup assets (lastSegment firstImage.link) with
        | none =>
          Except.error
            "TypeError: Cannot read properties of undefined (reading 'assetId')"
        | some assetObj =>
          Except.ok { f with featuredImage := some (.link assetObj.assetId) }
    else Except.ok f
  let f := if post.featuredImage = 0 then { f with featuredImage := none }
           else f
  let f := { f with tags := some (String.intercalate ", " post.tags) }
  let f := { f with
    categories := some (String.intercalate ", " post.categories) }
  return f

/-- The payload-building loop of `createContentfulPosts` (source lines
858–926): one `postFields` per post, in order; the first thrown `TypeError`
escapes the loop and aborts the whole entry-publishing stage. -/
def createContentfulPosts (contentFormat : String) (assetUrls : List String)
    (assets : List AssetRecord) (posts : List FieldData) :
    Except String (List EntryPayload) :=
  posts.mapM (buildPostFields contentFormat assetUrls assets)

/-! ## Concrete fixtures used by witnesses and counterexamples -/

/-- A featured-image reference (for a post whose featured media is id 3). -/
def exImgA : ImageRef :=
  { link := "https://x.com/up/a.jpg", description := "A", title := "A",
    mediaId := some 3, postId := 1, featured := true }

/-- A body-image reference of a second post. -/
def exImgB : ImageRef :=
  { link := "https://x.com/up/b.jpg", description := "B", title := "B",
    mediaId := none, postId := 2, featured := false }

/-- A normalized post whose featured image (media id 3) is `exImgA`. -/
def exPostA : FieldData :=
  { id := 1, type := "post", postTitle := "P1", slug := "p1",
    content := "Hello", publishDate := "2020-01-01T00:00:00+00:00",
    featuredImage := 3, tags := ["Go"], categories := [],
    contentImages := [exImgA] }

/-- A normalized post with no featured image (`featured_media = 0`). -/
def exPostB : FieldData :=
  { id := 2, type := "post", postTitle := "P2", slug := "p2",
    content := "World", publishDate := "2020-01-02T00:00:00+00:00",
    featuredImage := 0, tags := [], categories := ["News"],
    contentImages := [exImgB] }

/-- An upload outcome where the first asset (index 0, `exPostA`'s featured
image `a.jpg`) fails and every sibling publishes as asset `A2`. -/
def exOutcome : Nat → Option String :=
  fun i => if i = 0 then none else some "A2"

/-- A fetched tags collection resolving ids 5 and 9 to `Go` and `Rust`. -/
def exLabelApi : List ApiResult :=
  [{ endpoint := "tags", success := true,
     data := .labels [{ id := 5, name := "Go" }, { id := 9, name := "Rust" }] }]

/-- A fetched media collection that does not contain media id 3. -/
def exMediaApi : List ApiResult :=
  [{ endpoint := "media", success := true,
     data := .media [{ id := 9, source_url := "https://x.com/up/m.jpg",
                       alt_text := "", post := 4 }] }]

/-- A fetched media collection that resolves media id 3. -/
def exMediaApiHit : List ApiResult :=
  [{ endpoint := "media", success := true,
     data := .media [{ id := 3, source_url := "https://x.com/up/f.jpg",
                       alt_text := "Feat", post := 4 }] }]

/-- A raw post with featured media id 3 and one body image. -/
def exRawPost : RawPost :=
  { id := 1, type := "post", title_rendered := "T", slug := "t",
    content_rendered := "Hi <img src=\"https://x.com/up/c.png\">",
    date_gmt := "2020-01-01T00:00:00", featured_media := 3,
    tags := [], categories := [] }

/-! ## Helper lemmas -/

/-- Rebuilding a string from its character list is the identity. -/
theorem string_mk_data (s : String) : String.mk s.data = s := by
  cases s
  rfl

/-- Filtering then indexing `[0]` is exactly first-match search: the idiom the script
uses for every lookup. -/
theorem head?_filter_eq_find? (p : α → Bool) (l : List α) :
    (l.filter p).head? = l.find? p := by
  induction l with
  | nil => rfl
  | cons a l ih =>
    by_cases h : p a <;> simp [List.filter_cons, List.find?_cons, h, ih]

/-- A fold that appends per-element blocks builds the flat concatenation. -/
theorem foldl_append_eq_flatMap (f : α → List β) (l : List α)
    (acc : List β) :
    l.foldl (fun a x => a ++ f x) acc = acc ++ l.flatMap f := by
  induction l generalizing acc with
  | nil => simp
  | cons a l ih => simp [ih]

/-- The asset-building fold is the flat concatenation of per-post,
per-image request blocks. -/
theorem buildContentfulAssets_eq_flatMap (posts : List FieldData) :
    buildContentfulAssets posts
      = posts.flatMap (fun p => p.contentImages.enum.map
          (fun q => mkAssetObj p.slug q.1 q.2)) := by
  unfold buildContentfulAssets
  rw [foldl_append_eq_flatMap]
  rfl

/-- Every image reference produced by the body scan is non-featured. -/
theorem extractBodyImagesAux_featured_false (pid : Nat) :
    ∀ (fuel : Nat) (cs : List Char) (img : ImageRef),
      img ∈ extractBodyImagesAux pid fuel cs → img.featured = false := by
  intro fuel
  induction fuel with
  | zero => intro cs img h; simp [extractBodyImagesAux] at h
  | succ n ih =>
    intro cs img h
    rw [extractBodyImagesAux] at h
    revert h
    cases findImgMatch cs with
    | none => intro h; simp at h
    | some m =>
      intro h
      rcases List.mem_cons.mp h with h1 | h2
      · subst h1; rfl
      · exact ih _ _ h2

/-! ## Claim theorems -/

/-- C1: the claim says that when one asset upload of a batch fails, the
failure is resolved as "no asset produced", sibling uploads survive in the
asset map, and the entry-publishing stage still runs to completion, merely
omitting the featured-image link of the affected posts.  The first two parts
hold, but the last is false on the code: with two posts whose images are
`a.jpg` (featured image of post 1) and `b.jpg`, and an upload outcome where
item 0 (`a.jpg`) fails, the asset array holds only `b.jpg`; building the
entry payloads then throws a `TypeError` at source line 914 (`assetObj` is
`undefined` because no asset matches `a.jpg`), so the entry-publishing stage
aborts instead of omitting the link — even though the sibling post's payload
by itself would have built fine. -/
theorem claim1_entry_stage_crashes_on_failed_featured_asset :
    (createContentfulAssets (buildContentfulAssets [exPostA, exPostB])
        exOutcome).1
      = [{ assetId := "A2", fileName := "b.jpg" }]
    ∧ createContentfulPosts "markdown" []
        [{ assetId := "A2", fileName := "b.jpg" }] [exPostA, exPostB]
      = .error
          "TypeError: Cannot read properties of undefined (reading 'assetId')"
    ∧ (buildPostFields "markdown" []
        [{ assetId := "A2", fileName := "b.jpg" }] exPostB).isOk = true := by
  refine ⟨rfl, rfl, rfl⟩

/-- C2: the claim says that for a source reporting `N` total items and page
cap 100, requesting `M > N` items issues `ceil(N/100)` page requests and
returns exactly `N` items.  False on the code: for `N = 101`, `M = 102`, the
loop requests page 1 with `per_page=100`, then shrinks the page size to the
remainder (2) while moving to page number 2, so the second request returns
the 2-item-page slice — items 2 and 3 again.  The function returns 102 items
with items 2 and 3 duplicated, and item 100 (the 101st) is never fetched. -/
theorem claim2_pagination_overfetches_with_duplicates :
    (fetchDataWithPagination 101 102).requests = [(100, 1), (2, 2)]
    ∧ (fetchDataWithPagination 101 102).data.length = 102
    ∧ (fetchDataWithPagination 101 102).data.count 2 = 2
    ∧ (fetchDataWithPagination 101 102).data.contains 100 = false := by
  refine ⟨by decide, by decide, by decide, by decide⟩

/-- C3: the claim says an inline image whose file name has no entry in the
asset map leaves no reference in the converted output in either mode.  False
on the code: the turndown image rule renders an unmatched image as
`![alt](undefined)`; flat mode applies no clean-up at all, and richtext mode
runs its `![...](undefined)` strip on the *input HTML* (source line 167),
before the markdown that contains the placeholder is derived, so the
placeholder survives into a paragraph node. -/
theorem claim3_unmatched_image_left_as_undefined_reference :
    (["https://cdn.example.com/b.png"].filter
       (fun a => lastSegment a = lastSegment "https://x.com/a.png")) = []
    ∧ turndownStr ["https://cdn.example.com/b.png"]
        "Intro <img src=\"https://x.com/a.png\" alt=\"pic\"> outro"
      = "Intro ![pic](undefined) outro"
    ∧ convertToRichText ["https://cdn.example.com/b.png"]
        "Intro <img src=\"https://x.com/a.png\" alt=\"pic\"> outro"
      = ⟨[.paragraph [.text "Intro ![pic](undefined) outro"]]⟩ := by
  refine ⟨rfl, rfl, rfl⟩

/-- C4: for every post whose featured-media id is 0, the built entry payload
carries no `featuredImage` field at all — the key is first written with the
raw value and then deleted (source lines 921–923), so the final payload has
`featuredImage = none` (and the build itself cannot throw). -/
theorem claim4_zero_featured_media_omits_field
    (contentFormat : String) (assetUrls : List String)
    (assets : List AssetRecord) (post : FieldData)
    (h : post.featuredImage = 0) :
    ∃ pf, buildPostFields contentFormat assetUrls assets post = .ok pf
      ∧ pf.featuredImage = none := by
  simp only [buildPostFields, h]
  exact ⟨_, rfl, rfl⟩

/-- Witness for C4 at the concrete post `exPostB` (featured media 0). -/
theorem claim4_zero_featured_media_omits_field_witness :
    ∃ pf, buildPostFields "markdown" [] [] exPostB = .ok pf
      ∧ pf.featuredImage = none :=
  claim4_zero_featured_media_omits_field "markdown" [] [] exPostB rfl

/-- C5: a post whose featured-media id is positive but matches no record in
the fetched media collection still normalizes without throwing: the media
filter comes up empty, the guarded branch (source line 516) only logs a
warning, no featured reference enters the image list, and every other field
of the `fieldData` record is populated exactly as usual. -/
theorem claim5_unresolvable_featured_media_degrades
    (api : List ApiResult) (post : RawPost) (r : ApiResult)
    (items : List MediaObj)
    (hpos : post.featured_media > 0)
    (hr : (getApiDataType api "media").head? = some r)
    (hdata : r.data = .media items)
    (hmiss : ∀ m ∈ items, m.id ≠ post.featured_media) :
    ∃ fd ws, mapPost api post = .ok (fd, ws)
      ∧ fd.contentImages = extractBodyImages post.content_rendered post.id
      ∧ (∀ img ∈ fd.contentImages, img.featured = false)
      ∧ (s!"Warning: Featured media with ID {post.featured_media} not found for post: {post.slug}") ∈ ws
      ∧ fd.postTitle = post.title_rendered
      ∧ fd.slug = post.slug
      ∧ fd.content = post.content_rendered
      ∧ fd.publishDate = post.date_gmt ++ "+00:00"
      ∧ fd.tags = (getPostLabels api post.tags "tags").1
      ∧ fd.categories = (getPostLabels api post.categories "categories").1 := by
  have hfil : (mediaItems r.data).filter
      (fun o => o.id = post.featured_media) = [] := by
    rw [hdata]
    refine List.filter_eq_nil_iff.mpr ?_
    intro m hm
    simp [mediaItems] at hm ⊢
    exact hmiss m hm
  have himg : getPostBodyImages api post
      = .ok (extractBodyImages post.content_rendered post.id,
          [s!"Warning: Featured media with ID {post.featured_media} not found for post: {post.slug}"]) := by
    unfold getPostBodyImages
    rw [if_pos hpos, hr]
    simp [hfil]
  have hmap : mapPost api post
      = .ok ({ id := post.id, type := post.type,
               postTitle := post.title_rendered, slug := post.slug,
               content := post.content_rendered,
               publishDate := post.date_gmt ++ "+00:00",
               featuredImage := post.featured_media,
               tags := (getPostLabels api post.tags "tags").1,
               categories := (getPostLabels api post.categories
                 "categories").1,
               contentImages := extractBodyImages post.content_rendered
                 post.id },
             (getPostLabels api post.tags "tags").2
               ++ (getPostLabels api post.categories "categories").2
               ++ [s!"Warning: Featured media with ID {post.featured_media} not found for post: {post.slug}"]) := by
    unfold mapPost
    rw [himg]
    rfl
  refine ⟨_, _, hmap, rfl, ?_, ?_, rfl, rfl, rfl, rfl, rfl, rfl⟩
  · intro img hmem
    exact extractBodyImagesAux_featured_false post.id _ _ img hmem
  · simp

/-- Witness for C5: concrete media collection holding only media id 9,
a post with featured media 3 and one body image. -/
theorem claim5_unresolvable_featured_media_degrades_witness :
    ∃ fd ws, mapPost exMediaApi exRawPost = .ok (fd, ws)
      ∧ fd.contentImages
          = extractBodyImages exRawPost.content_rendered exRawPost.id
      ∧ (∀ img ∈ fd.contentImages, img.featured = false)
      ∧ (s!"Warning: Featured media with ID {exRawPost.featured_media} not found for post: {exRawPost.slug}") ∈ ws
      ∧ fd.postTitle = exRawPost.title_rendered
      ∧ fd.slug = exRawPost.slug
      ∧ fd.content = exRawPost.content_rendered
      ∧ fd.publishDate = exRawPost.date_gmt ++ "+00:00"
      ∧ fd.tags = (getPostLabels exMediaApi exRawPost.tags "tags").1
      ∧ fd.categories
          = (getPostLabels exMediaApi exRawPost.categories "categories").1 :=
  claim5_unresolvable_featured_media_degrades exMediaApi exRawPost _ _
    (by decide) rfl rfl (by decide)

/-- C6: (1) when the featured media resolves, the normalized image list is
the featured reference followed by the body images in document order; (2) the
`filter`-then-`[0]` asset lookup is first-match in the order of the uploaded
asset array; (3) the featured link is resolved from the file name of the
*first* image of the list and carries that first match's asset id; (4) on a
concrete two-image document the body scan emits the images in document
order. -/
theorem claim6_image_ordering_and_first_match_lookup :
    (∀ (api : List ApiResult) (post : RawPost) (r : ApiResult)
       (items : List MediaObj) (m : MediaObj),
       post.featured_media > 0 →
       (getApiDataType api "media").head? = some r →
       r.data = .media items →
       (items.filter (fun o => o.id = post.featured_media)).head? = some m →
       ∃ fd ws, mapPost api post = .ok (fd, ws)
         ∧ fd.contentImages
             = featuredImageRef m post.id
                 :: extractBodyImages post.content_rendered post.id)
    ∧ (∀ (assets : List AssetRecord) (fname : String),
        assetLookup assets fname
          = assets.find? (fun a => a.fileName = fname))
    ∧ (∀ (contentFormat : String) (assetUrls : List String)
         (assets : List AssetRecord) (post : FieldData) (img0 : ImageRef)
         (a : AssetRecord),
        post.contentImages.head? = some img0 →
        post.featuredImage > 0 →
        assetLookup assets (lastSegment img0.link) = some a →
        ∃ pf, buildPostFields contentFormat assetUrls assets post = .ok pf
          ∧ pf.featuredImage = some (.link a.assetId))
    ∧ extractBodyImages
        "<img src=\"https://x.com/one.png\"> and <img src=\"https://x.com/two.png\">"
        7
      = [{ link := "https://x.com/one.png",
           description := "Image from post 7", title := "Image from post 7",
           mediaId := none, postId := 7, featured := false },
         { link := "https://x.com/two.png",
           description := "Image from post 7", title := "Image from post 7",
           mediaId := none, postId := 7, featured := false }] := by
  refine ⟨?_, ?_, ?_, by decide⟩
  · intro api post r items m hpos hr hdata hm
    have himg : getPostBodyImages api post
        = .ok (featuredImageRef m post.id
            :: extractBodyImages post.content_rendered post.id, []) := by
      unfold getPostBodyImages
      rw [if_pos hpos, hr]
      dsimp only
      rw [hdata]
      dsimp only [mediaItems]
      rw [hm]
    have hmap : mapPost api post
        = .ok ({ id := post.id, type := post.type,
                 postTitle := post.title_rendered, slug := post.slug,
                 content := post.content_rendered,
                 publishDate := post.date_gmt ++ "+00:00",
                 featuredImage := post.featured_media,
                 tags := (getPostLabels api post.tags "tags").1,
                 categories := (getPostLabels api post.categories
                   "categories").1,
                 contentImages := featuredImageRef m post.id
                   :: extractBodyImages post.content_rendered post.id },
               (getPostLabels api post.tags "tags").2
                 ++ (getPostLabels api post.categories "categories").2
                 ++ []) := by
      unfold mapPost
      rw [himg]
      rfl
    exact ⟨_, _, hmap, rfl⟩
  · intro assets fname
    exact head?_filter_eq_find? _ assets
  · intro contentFormat assetUrls assets post img0 a h0 hpos ha
    have hne : ¬ post.featuredImage = 0 := by omega
    simp only [buildPostFields, if_pos hpos, h0, ha, if_neg hne]
    exact ⟨_, rfl, rfl⟩

/-- Witness for C6: the featured media resolves via `exMediaApiHit` and the
first image of `exPostA` (`a.jpg`) matches the first of two asset records
sharing that file name. -/
theorem claim6_image_ordering_and_first_match_lookup_witness :
    (∃ fd ws, mapPost exMediaApiHit exRawPost = .ok (fd, ws)
       ∧ fd.contentImages
           = featuredImageRef
               { id := 3, source_url := "https://x.com/up/f.jpg",
                 alt_text := "Feat", post := 4 } exRawPost.id
               :: extractBodyImages exRawPost.content_rendered exRawPost.id)
    ∧ (∃ pf, buildPostFields "markdown" []
          [{ assetId := "A1", fileName := "a.jpg" },
           { assetId := "A9", fileName := "a.jpg" }] exPostA = .ok pf
        ∧ pf.featuredImage = some (.link "A1")) := by
  constructor
  · exact claim6_image_ordering_and_first_match_lookup.1 exMediaApiHit
      exRawPost _ _ _ (by decide) rfl rfl rfl
  · exact claim6_image_ordering_and_first_match_lookup.2.2.1 "markdown" []
      _ exPostA exImgA { assetId := "A1", fileName := "a.jpg" } rfl
      (by decide) rfl

/-- C7: the asset-building loop produces exactly one creation request per
image reference, sequenced post by post and, within a post, image by image
(the flat concatenation of per-post blocks); its size is the total image
count; and duplicate file names are not deduplicated — a post carrying the
same image reference twice yields two identical requests. -/
theorem claim7_one_asset_request_per_image_no_dedup :
    (∀ posts : List FieldData,
      buildContentfulAssets posts
        = posts.flatMap (fun p => p.contentImages.enum.map
            (fun q => mkAssetObj p.slug q.1 q.2)))
    ∧ (∀ posts : List FieldData,
        (buildContentfulAssets posts).length
          = (posts.map (fun p => p.contentImages.length)).sum)
    ∧ buildContentfulAssets [{ exPostA with contentImages := [exImgA, exImgA] }]
      = [mkAssetObj "p1" 0 exImgA, mkAssetObj "p1" 1 exImgA] := by
  refine ⟨buildContentfulAssets_eq_flatMap, ?_, by decide⟩
  intro posts
  rw [buildContentfulAssets_eq_flatMap]
  induction posts with
  | nil => rfl
  | cons p ps ih =>
    simp only [List.flatMap_cons, List.length_append, List.length_map,
      List.map_cons, List.sum_cons, ih, List.enum_length]

/-- When every record of the collection has a non-empty name, the script's
truthiness-laden filter (`obj.id === labelId && obj.name`) followed by `[0]`
coincides with plain first-match search by id. -/
theorem filter_name_head_eq_find (data : List LabelObj) (i : Nat)
    (h : ∀ o ∈ data, o.name ≠ "") :
    (data.filter (fun o => o.id = i ∧ o.name ≠ "")).head?
      = data.find? (fun o => o.id = i) := by
  induction data with
  | nil => rfl
  | cons a l ih =>
    have ha : a.name ≠ "" := h a (List.mem_cons_self a l)
    have hl : ∀ o ∈ l, o.name ≠ "" := fun o ho => h o (List.mem_cons_of_mem a ho)
    by_cases hid : a.id = i
    · rw [List.filter_cons_of_pos (by simp [hid, ha]),
        List.find?_cons_of_pos _ (by simp [hid])]
      rfl
    · rw [List.filter_cons_of_neg (by simp [hid]),
        List.find?_cons_of_neg _ (by simp [hid])]
      exact ih hl

/-- The resolved-name list of `getPostLabelsAux` is the in-order filterMap of
first-match lookups, provided every record has a non-empty name. -/
theorem getPostLabelsAux_fst (data : List LabelObj) (labelType : String)
    (h : ∀ o ∈ data, o.name ≠ "") :
    ∀ ids : List Nat,
      (getPostLabelsAux data labelType ids).1
        = ids.filterMap (fun i =>
            (data.find? (fun o => o.id = i)).map (fun o => o.name)) := by
  intro ids
  induction ids with
  | nil => rfl
  | cons i ids ih =>
    rw [getPostLabelsAux]
    rw [filter_name_head_eq_find data i h]
    cases hf : data.find? (fun o => o.id = i) with
    | none => simpa [List.filterMap_cons, hf] using ih
    | some o =>
      have ho : o.name ≠ "" := h o (List.mem_of_find?_eq_some hf)
      simpa [List.filterMap_cons, hf, ho] using ih

/-- C8: label resolution maps the post's id list to the list of resolved
names, in the order of the id list, dropping unresolvable ids with no
placeholder (given the well-formedness condition that fetched labels carry
non-empty names, under which the script's truthy-name filter is exactly
resolution); concretely, ids `[5, 2, 9]` against a collection naming 5 `Go`
and 9 `Rust` yield `["Go", "Rust"]`. -/
theorem claim8_label_resolution_order_and_dropping
    (api : List ApiResult) (ids : List Nat) (labelType : String)
    (r : ApiResult)
    (hr : (getApiDataType api labelType).head? = some r)
    (hnames : ∀ o ∈ labelItems r.data, o.name ≠ "") :
    (getPostLabels api ids labelType).1
      = ids.filterMap (fun i =>
          ((labelItems r.data).find? (fun o => o.id = i)).map
            (fun o => o.name))
    ∧ (getPostLabels exLabelApi [5, 2, 9] "tags").1 = ["Go", "Rust"] := by
  constructor
  · unfold getPostLabels
    rw [hr]
    exact getPostLabelsAux_fst (labelItems r.data) labelType hnames ids
  · decide

/-- Witness for C8 at the concrete tags collection `exLabelApi`. -/
theorem claim8_label_resolution_order_and_dropping_witness :
    ((getPostLabels exLabelApi [5, 2, 9] "tags").1
      = [5, 2, 9].filterMap (fun i =>
          ((labelItems (ApiPayload.labels
              [{ id := 5, name := "Go" }, { id := 9, name := "Rust" }])).find?
            (fun o => o.id = i)).map (fun o => o.name)))
    ∧ (getPostLabels exLabelApi [5, 2, 9] "tags").1 = ["Go", "Rust"] :=
  claim8_label_resolution_order_and_dropping exLabelApi [5, 2, 9] "tags" _
    rfl (by decide)

/-- C9: structured-mode line classification — a `# ` line becomes one
heading-1 node with the prefix removed, `## ` and `### ` lines heading-2 and
heading-3 likewise, a `> ` line one blockquote node wrapping a paragraph with
the prefix removed, and any other non-empty line one paragraph node carrying
the line verbatim; the composite markdown `# Hello\n> Quoted\nPlain text.`
classifies line by line accordingly. -/
theorem claim9_structured_mode_line_classification :
    (∀ s : String, classifyLine ("# " ++ s) = [.heading1 [.text s]])
    ∧ (∀ s : String, classifyLine ("## " ++ s) = [.heading2 [.text s]])
    ∧ (∀ s : String, classifyLine ("### " ++ s) = [.heading3 [.text s]])
    ∧ (∀ s : String,
        classifyLine ("> " ++ s) = [.blockquote [.paragraph [.text s]]])
    ∧ (∀ s : String, 0 < s.length →
        jsStartsWith s "# " = false → jsStartsWith s "## " = false →
        jsStartsWith s "### " = false → jsStartsWith s "> " = false →
        classifyLine s = [.paragraph [.text s]])
    ∧ richTextFromMarkdown "# Hello\n> Quoted\nPlain text."
        = ⟨[.heading1 [.text "Hello"],
            .blockquote [.paragraph [.text "Quoted"]],
            .paragraph [.text "Plain text."]]⟩ := by
  refine ⟨?_, ?_, ?_, ?_, ?_, by decide⟩
  · intro s
    simp [classifyLine, jsStartsWith, charsStartWith, String.data_append,
      jsSubstring, string_mk_data]
  · intro s
    simp [classifyLine, jsStartsWith, charsStartWith, String.data_append,
      jsSubstring, string_mk_data]
  · intro s
    simp [classifyLine, jsStartsWith, charsStartWith, String.data_append,
      jsSubstring, string_mk_data]
  · intro s
    simp [classifyLine, jsStartsWith, charsStartWith, String.data_append,
      jsSubstring, string_mk_data]
  · intro s hlen h1 h2 h3 h4
    simp [classifyLine, h1, h2, h3, h4, hlen]

/-- Witness for C9: each classification case at a concrete line. -/
theorem claim9_structured_mode_line_classification_witness :
    classifyLine ("# " ++ "Hello") = [.heading1 [.text "Hello"]]
    ∧ classifyLine ("## " ++ "Sub") = [.heading2 [.text "Sub"]]
    ∧ classifyLine ("### " ++ "Deep") = [.heading3 [.text "Deep"]]
    ∧ classifyLine ("> " ++ "Quoted")
        = [.blockquote [.paragraph [.text "Quoted"]]]
    ∧ classifyLine "Plain text." = [.paragraph [.text "Plain text."]] :=
  ⟨claim9_structured_mode_line_classification.1 "Hello",
   claim9_structured_mode_line_classification.2.1 "Sub",
   claim9_structured_mode_line_classification.2.2.1 "Deep",
   claim9_structured_mode_line_classification.2.2.2.1 "Quoted",
   claim9_structured_mode_line_classification.2.2.2.2.1 "Plain text."
     (by decide) (by decide) (by decide) (by decide) (by decide)⟩

/-- A split never produces the empty list of chunks. -/
theorem splitListChar_ne_nil (sep : Char) (l : List Char) :
    splitListChar sep l ≠ [] := by
  induction l with
  | nil => simp [splitListChar]
  | cons c rest ih =>
    rw [splitListChar]
    cases h : splitListChar sep rest with
    | nil => exact absurd h ih
    | cons hh tt =>
      by_cases hc : c = sep <;> simp [hc]

/-- Splitting a separator-free list yields that list as the only chunk. -/
theorem splitListChar_no_sep (sep : Char) (l : List Char)
    (h : ∀ c ∈ l, c ≠ sep) : splitListChar sep l = [l] := by
  induction l with
  | nil => rfl
  | cons c rest ih =>
    have hc : c ≠ sep := h c (List.mem_cons_self c rest)
    have hrest : ∀ x ∈ rest, x ≠ sep :=
      fun x hx => h x (List.mem_cons_of_mem c hx)
    rw [splitListChar, ih hrest]
    simp [hc]

/-- A list containing the separator splits into at least two chunks. -/
theorem two_le_splitListChar_append (sep : Char) (xs ys : List Char) :
    2 ≤ (splitListChar sep (xs ++ sep :: ys)).length := by
  induction xs with
  | nil =>
    rw [List.nil_append, splitListChar]
    cases h : splitListChar sep ys with
    | nil => exact absurd h (splitListChar_ne_nil sep ys)
    | cons hh tt => simp
  | cons x xs ih =>
    rw [List.cons_append, splitListChar]
    cases h : splitListChar sep (xs ++ sep :: ys) with
    | nil => exact absurd h (splitListChar_ne_nil sep _)
    | cons hh tt =>
      rw [h] at ih
      by_cases hx : x = sep <;> simp only [hx, if_true, if_pos, if_neg,
        ite_true, ite_false, List.length_cons] <;> simp at ih <;> omega

/-- The last chunk of a split is untouched by anything left of the last
separator occurrence. -/
theorem getLast?_splitListChar_append (sep : Char) (xs ys : List Char) :
    (splitListChar sep (xs ++ sep :: ys)).getLast?
      = (splitListChar sep ys).getLast? := by
  induction xs with
  | nil =>
    rw [List.nil_append, splitListChar]
    cases h : splitListChar sep ys with
    | nil => exact absurd h (splitListChar_ne_nil sep ys)
    | cons hh tt => simp
  | cons x xs ih =>
    rw [List.cons_append, splitListChar]
    cases h : splitListChar sep (xs ++ sep :: ys) with
    | nil => exact absurd h (splitListChar_ne_nil sep _)
    | cons hh tt =>
      have hlen : 2 ≤ (hh :: tt).length := by
        rw [← h]; exact two_le_splitListChar_append sep xs ys
      rw [h] at ih
      by_cases hx : x = sep
      · simpa [hx] using ih
      · cases tt with
        | nil => simp at hlen
        | cons t1 ts => simpa [hx] using ih

/-- Taking while a predicate holds passes over a block that satisfies it. -/
theorem takeWhile_append_all (p : Char → Bool) (l1 l2 : List Char)
    (h : ∀ c ∈ l1, p c = true) :
    (l1 ++ l2).takeWhile p = l1 ++ l2.takeWhile p := by
  induction l1 with
  | nil => rfl
  | cons c rest ih =>
    have hc := h c (List.mem_cons_self c rest)
    have hrest : ∀ x ∈ rest, p x = true :=
      fun x hx => h x (List.mem_cons_of_mem c hx)
    simp [List.takeWhile_cons, hc, ih hrest]

/-- The derivation `split('/').pop()` equals the slash-free suffix: on any URL of the form
`s ++ "/" ++ t` with `t` slash-free, both the source's file-name derivation
and the spec-side `suffixAfterLastSlash` return `t`. -/
theorem lastSegment_eq_suffix (s t : String) (h : ∀ c ∈ t.data, c ≠ '/') :
    lastSegment (s ++ "/" ++ t) = t ∧ suffixAfterLastSlash (s ++ "/" ++ t) = t := by
  have hdata : (s ++ "/" ++ t).data = s.data ++ '/' :: t.data := by
    simp [String.data_append]
  constructor
  · unfold lastSegment jsSplitChar
    rw [hdata]
    rw [List.getLastD_eq_getLast?, List.getLast?_map,
      getLast?_splitListChar_append, splitListChar_no_sep _ _ h]
    simp [string_mk_data]
  · unfold suffixAfterLastSlash
    rw [hdata]
    have hrev : (s.data ++ '/' :: t.data).reverse
        = t.data.reverse ++ '/' :: s.data.reverse := by
      simp
    rw [hrev]
    rw [takeWhile_append_all _ _ _
      (fun c hc => by
        simp only [decide_eq_true_eq]
        exact h c (List.mem_reverse.mp hc))]
    simp [List.takeWhile_cons, string_mk_data]

/-- An element of an enumerated list is an element of the list. -/
theorem snd_mem_of_mem_enumFrom (l : List α) :
    ∀ (n : Nat) (q : Nat × α), q ∈ l.enumFrom n → q.2 ∈ l := by
  induction l with
  | nil => intro n q h; simp [List.enumFrom] at h
  | cons a l ih =>
    intro n q h
    rw [List.enumFrom] at h
    rcases List.mem_cons.mp h with h1 | h2
    · subst h1; exact List.mem_cons_self a l
    · exact List.mem_cons_of_mem a (ih (n + 1) q h2)

/-- C10: every asset-creation request built from the normalized posts
declares content type `image/jpeg` (whatever the image's actual extension),
file name `split('/').pop()` of the source URL, and upload location
`encodeURI` of the source URL; and the `split('/').pop()` derivation is
exactly the substring after the last `/` (conjunct 2, with the concrete
instance in conjunct 3 — including a `.png` URL still typed `image/jpeg`). -/
theorem claim10_asset_request_fields :
    (∀ (posts : List FieldData) (a : AssetObj),
       a ∈ buildContentfulAssets posts →
       a.contentType = "image/jpeg"
       ∧ ∃ p ∈ posts, ∃ img ∈ p.contentImages,
           a.fileName = lastSegment img.link
           ∧ a.upload = encodeURI img.link)
    ∧ (∀ s t : String, (∀ c ∈ t.data, c ≠ '/') →
        lastSegment (s ++ "/" ++ t) = t
          ∧ suffixAfterLastSlash (s ++ "/" ++ t) = t)
    ∧ lastSegment "https://x.com/up/photo.png" = "photo.png"
    ∧ (mkAssetObj "p1" 0
        { exImgA with link := "https://x.com/up/photo.png" }).contentType
      = "image/jpeg" := by
  refine ⟨?_, lastSegment_eq_suffix, by decide, rfl⟩
  intro posts a ha
  rw [buildContentfulAssets_eq_flatMap] at ha
  rcases List.mem_flatMap.mp ha with ⟨p, hp, hm⟩
  rcases List.mem_map.mp hm with ⟨q, hq, rfl⟩
  refine ⟨rfl, p, hp, q.2, ?_, rfl, rfl⟩
  exact snd_mem_of_mem_enumFrom p.contentImages 0 q hq

/-- Witness for C10: the request built for `exPostA`'s only image, and the
suffix property at a concrete URL split. -/
theorem claim10_asset_request_fields_witness :
    ((mkAssetObj "p1" 0 exImgA).contentType = "image/jpeg"
      ∧ ∃ p ∈ [exPostA], ∃ img ∈ p.contentImages,
          (mkAssetObj "p1" 0 exImgA).fileName = lastSegment img.link
          ∧ (mkAssetObj "p1" 0 exImgA).upload = encodeURI img.link)
    ∧ (lastSegment ("https://x.com/up" ++ "/" ++ "a.jpg") = "a.jpg"
        ∧ suffixAfterLastSlash ("https://x.com/up" ++ "/" ++ "a.jpg")
          = "a.jpg") :=
  ⟨claim10_asset_request_fields.1 [exPostA] (mkAssetObj "p1" 0 exImgA)
     (by decide),
   claim10_asset_request_fields.2.1 "https://x.com/up" "a.jpg" (by decide)⟩

end WpToCtf
